import Mathlib

/-!
Shallow embedding of the synchronization core of the `statusbar` repository
(`src/todos.rs`): the operation-log model (`apply_operation`), the command
interpreter (the `Message::SubmitInput` arm of `Todos::update`), the
`Message::SetActive` arm, and the session-state transitions triggered by
`Message::WebsocketRecvComplete` and `Message::LogOut`.

Rust `VecDeque` values are modelled as Lean `List`s with the front of the
deque at the head of the list.  `xdg_manager` cache-file I/O is external;
the presence of the on-disk credential cache file is modelled as a Boolean
field threaded through the state transitions that touch it.
-/

/-- Model of Rust `Iterator::position`: index of the first element
satisfying the predicate. -/
def position (p : α → Bool) : List α → Option Nat
  | [] => none
  | x :: xs => if p x then some 0 else (position p xs).map (· + 1)

/-- Model of Rust `VecDeque::remove(pos)`: the element removed, `none`
when the index is out of range. -/
def vecRemoved (l : List α) (pos : Nat) : Option α := l[pos]?

/-- Model of Rust `VecDeque::remove(pos)`: the deque after the removal. -/
def vecRemove (l : List α) (pos : Nat) : List α := l.take pos ++ l.drop (pos + 1)

/-- Model of Rust `VecDeque::insert(pos, x)`. -/
def vecInsert (l : List α) (pos : Nat) (x : α) : List α := l.take pos ++ x :: l.drop pos

/-- Model of Rust `Option<usize>: PartialOrd` less-or-equal (`None` sorts
before `Some`), used by the `RevLiveTask` arm of `apply_operation`. -/
def optLe : Option Nat → Option Nat → Bool
  | none, _ => true
  | some _, none => false
  | some a, some b => a ≤ b

/-- `todoproxy_api::LiveTask`. -/
structure LiveTask where
  id : String
  value : String
deriving Repr, DecidableEq

/-- `todoproxy_api::TaskStatus`. -/
inductive TaskStatus
  | Succeeded
  | Failed
  | Obsoleted
deriving Repr, DecidableEq

/-- `todoproxy_api::FinishedTask`. -/
structure FinishedTask where
  id : String
  value : String
  status : TaskStatus
deriving Repr, DecidableEq

/-- `todoproxy_api::StateSnapshot`: the live deque and the finished deque,
front of each deque at the head. -/
structure StateSnapshot where
  live : List LiveTask
  finished : List FinishedTask
deriving Repr, DecidableEq

/-- `todoproxy_api::WebsocketOpKind`. -/
inductive WebsocketOpKind
  | OverwriteState (s : StateSnapshot)
  | InsLiveTask (id : String) (value : String)
  | EditLiveTask (id : String) (value : String)
  | DelLiveTask (id : String)
  | MvLiveTask (id_del : String) (id_ins : String)
  | RevLiveTask (id1 : String) (id2 : String)
  | FinishLiveTask (id : String) (status : TaskStatus)
  | RestoreFinishedTask (id : String)
deriving Repr, DecidableEq

/-- `todoproxy_api::WebsocketOp`. -/
structure WebsocketOp where
  alleged_time : Int
  kind : WebsocketOpKind
deriving Repr, DecidableEq

/-- The in-place editing loop of the `EditLiveTask` arm of
`apply_operation`: rewrite the value of the first task whose id matches,
then break. -/
def editFirst (id value : String) : List LiveTask → List LiveTask
  | [] => []
  | x :: xs =>
    if x.id == id then { x with value := value } :: xs
    else x :: editFirst id value xs

/-- Translation of `apply_operation` (src/todos.rs, lines 1245-1327).
The Rust function mutates `snapshot` and `active_id_val` in place; the
model returns the updated pair. -/
def apply_operation (snap : StateSnapshot) (active_id_val : Option (String × String))
    (op : WebsocketOpKind) : StateSnapshot × Option (String × String) :=
  match op with
  | .OverwriteState s => ({ live := s.live, finished := s.finished }, none)
  | .InsLiveTask id value =>
    ({ snap with live := { id := id, value := value } :: snap.live }, active_id_val)
  | .RestoreFinishedTask id =>
    match position (fun x => x.id == id) snap.finished with
    | some pos =>
      match vecRemoved snap.finished pos with
      | some ft =>
        ({ live := { id := ft.id, value := ft.value } :: snap.live,
           finished := vecRemove snap.finished pos }, active_id_val)
      | none => (snap, active_id_val)
    | none => (snap, active_id_val)
  | .EditLiveTask id value =>
    ({ snap with live := editFirst id value snap.live }, active_id_val)
  | .DelLiveTask id =>
    let live' := snap.live.filter (fun x => !(x.id == id))
    let act' : Option (String × String) :=
      match active_id_val with
      | some (active_id, v) => if id == active_id then none else some (active_id, v)
      | none => none
    ({ snap with live := live' }, act')
  | .MvLiveTask id_del id_ins =>
    let ins_pos := position (fun x => x.id == id_ins) snap.live
    let del_pos := position (fun x => x.id == id_del) snap.live
    match ins_pos, del_pos with
    | some ip, some dp =>
      match vecRemoved snap.live dp with
      | some removed =>
        ({ snap with live := vecInsert (vecRemove snap.live dp) ip removed }, active_id_val)
      | none => (snap, active_id_val)
    | _, _ => (snap, active_id_val)
  | .RevLiveTask id1 id2 =>
    let pos1 := position (fun x => x.id == id1) snap.live
    let pos2 := position (fun x => x.id == id2) snap.live
    match (if optLe pos1 pos2 then (pos1, pos2) else (pos2, pos1)) with
    | (some start_pos, some end_pos) =>
      ({ snap with live :=
          snap.live.take start_pos
            ++ ((snap.live.drop start_pos).take (end_pos + 1 - start_pos)).reverse
            ++ snap.live.drop (end_pos + 1) }, active_id_val)
    | _ => (snap, active_id_val)
  | .FinishLiveTask id status =>
    let act' : Option (String × String) :=
      match active_id_val with
      | some (active_id, v) => if id == active_id then none else some (active_id, v)
      | none => none
    match position (fun x => x.id == id) snap.live with
    | some pos_in_live =>
      match vecRemoved snap.live pos_in_live with
      | some t =>
        ({ live := vecRemove snap.live pos_in_live,
           finished := { id := id, value := t.value, status := status } :: snap.finished }, act')
      | none => (snap, act')
    | none => (snap, act')

/-- The intent vocabulary `Op` of src/todos.rs (lines 158-166). -/
inductive Op
  | NewLive (value : String)
  | RestoreFinished (id : String)
  | Pop (id : String) (status : TaskStatus)
  | Edit (id : String) (value : String)
  | Move (id_del : String) (id_ins : String)
  | Rev (id1 : String) (id2 : String)
deriving Repr, DecidableEq

/-- Outcome of one `Message::SubmitInput` dispatch: the command the `update`
arm returns.  `emit op` stands for `state.wsop(op)` (serialize and send),
`collapseDock` / `toggleFinished` for the self-messages the arm schedules,
`nothing` for `Command::none()`, and `panics` for the `panic!()` arm. -/
inductive CmdOutcome
  | panics
  | nothing
  | collapseDock
  | toggleFinished
  | emit (op : Op)
deriving Repr, DecidableEq

/-- Model of `String::splitn`-free splitting used below: Rust
`str::split_once(" ")` and the `sscanf` templates are modelled through a
full split of the character list on single spaces, with empty pieces
preserved (so `"a  b"` yields `["a", "", "b"]`, as the `sscanf` templates
with one literal space reject doubled spaces). -/
def splitSpace : List Char → List (List Char)
  | [] => [[]]
  | c :: cs =>
    if c = ' ' then [] :: splitSpace cs
    else
      match splitSpace cs with
      | [] => [[c]]
      | w :: ws => (c :: w) :: ws

/-- Rust `val.split_once(" ").map(|x| x.0).unwrap_or(val.as_str())`: the
text before the first space, or the whole line when it has no space. -/
def firstWord (val : String) : String :=
  match splitSpace val.toList with
  | [] => val
  | [_] => val
  | w :: _ => String.mk w

/-- Model of parsing one `{usize}` capture of `sscanf`: a nonempty
all-digit token whose value fits in 64 bits. -/
def parseUsize (s : List Char) : Option Nat :=
  match s with
  | [] => none
  | _ =>
    if s.all (fun c => c.isDigit) then
      let n := s.foldl (fun acc c => acc * 10 + (c.toNat - 48)) 0
      if n < 2 ^ 64 then some n else none
    else none

/-- Model of `sscanf::scanf!(val, "<verb> {}", usize)`: the whole line must
be the verb, one space, and one usize token. -/
def scanUsize1 (verb : String) (val : String) : Option Nat :=
  match splitSpace val.toList with
  | [w, a] => if String.mk w = verb then parseUsize a else none
  | _ => none

/-- Model of `sscanf::scanf!(val, "<verb> {} {}", usize, usize)`. -/
def scanUsize2 (verb : String) (val : String) : Option (Nat × Nat) :=
  match splitSpace val.toList with
  | [w, a, b] =>
    if String.mk w = verb then
      match parseUsize a, parseUsize b with
      | some i, some j => some (i, j)
      | _, _ => none
    else none
  | _ => none

/-- Translation of the `Message::SubmitInput` arm of `Todos::update`
(src/todos.rs, lines 471-580), for a `Connected` session holding snapshot
`snap`, after `std::mem::take` has yielded the submitted line `val`.  The
Rust `match` on the first word is rendered as the equivalent
if-then-else chain. -/
def submit_input (snap : StateSnapshot) (val : String) : CmdOutcome :=
  let w := firstWord val
  if w = "x" then .panics
  else if w = "c" then .collapseDock
  else if w = "t" then .toggleFinished
  else if w = "s" then
    match snap.live.head? with
    | none => .nothing
    | some task => .emit (.Pop task.id .Succeeded)
  else if w = "f" then
    match snap.live.head? with
    | none => .nothing
    | some task => .emit (.Pop task.id .Failed)
  else if w = "o" then
    match snap.live.head? with
    | none => .nothing
    | some task => .emit (.Pop task.id .Obsoleted)
  else if w = "r" then
    let fin := snap.finished
    match scanUsize1 "r" val with
    | some i =>
      match fin[i]? with
      | some t => .emit (.RestoreFinished t.id)
      | none => .nothing
    | none =>
      if val = "r" then
        match fin.head? with
        | some t => .emit (.RestoreFinished t.id)
        | none => .nothing
      else .nothing
  else if w = "q" then
    let l := snap.live
    match scanUsize1 "q" val with
    | some i =>
      match l[i]?, l.getLast? with
      | some fr, some bk => if l.length > 1 then .emit (.Move fr.id bk.id) else .nothing
      | _, _ => .nothing
    | none =>
      if val = "q" then
        match l.head?, l.getLast? with
        | some fr, some bk => if l.length > 1 then .emit (.Move fr.id bk.id) else .nothing
        | _, _ => .nothing
      else .nothing
  else if w = "mv" then
    let l := snap.live
    match scanUsize2 "mv" val with
    | some (i, j) =>
      match l[i]?, l[j]? with
      | some fr, some bk => if i ≠ j then .emit (.Move fr.id bk.id) else .nothing
      | _, _ => .nothing
    | none =>
      match scanUsize1 "mv" val with
      | some i =>
        match l[i]?, l.head? with
        | some fr, some bk => if l.length > 1 then .emit (.Move fr.id bk.id) else .nothing
        | _, _ => .nothing
      | none => .nothing
  else if w = "rev" then
    let l := snap.live
    match scanUsize2 "rev" val with
    | some (i, j) =>
      match l[i]?, l[j]? with
      | some fr, some bk => if i ≠ j then .emit (.Rev fr.id bk.id) else .nothing
      | _, _ => .nothing
    | none =>
      match scanUsize1 "rev" val with
      | some i =>
        match l[i]?, l.head? with
        | some fr, some bk => if l.length > 1 then .emit (.Rev fr.id bk.id) else .nothing
        | _, _ => .nothing
      | none => .nothing
  else .emit (.NewLive val)

/-- Result of one `Message::SetActive` dispatch while `Connected`:
either the arm panics (the `.unwrap()` on the live search), or it yields
the new `active_id_val` together with the `EditLiveTask` commit intent
emitted for the previously active task (if any). -/
inductive SetActiveResult
  | panics
  | ok (newActive : Option (String × String)) (emitted : Option Op)
deriving Repr, DecidableEq

/-- Translation of the `Message::SetActive` arm of `Todos::update`
(src/todos.rs, lines 591-622) for a `Connected` session.  When the arm
panics, the edit command it had built is dropped with the update, so no
intent is emitted. -/
def set_active (snap : StateSnapshot) (active_id_val : Option (String × String))
    (a : Option String) : SetActiveResult :=
  let edit_emit : Option Op :=
    match active_id_val with
    | some (id, value) => some (.Edit id value)
    | none => none
  match a with
  | some id =>
    match snap.live.find? (fun x => x.id == id) with
    | some t => .ok (some (id, t.value)) edit_emit
    | none => .panics
  | none => .ok none edit_emit

/-- The `Connected` variant's fields (src/todos.rs, lines 133-145); the
transport handles are external and carry no state relevant to the claims. -/
structure ConnectedState where
  api_key : String
  input_value : String
  active_id_val : Option (String × String)
  snapshot : StateSnapshot
  show_finished : Bool
deriving Repr, DecidableEq

/-- The session `State` enum (src/todos.rs, lines 78-122). -/
inductive SessionState
  | NotLoggedIn (email : String) (password : String) (view_password : Bool)
      (error : Option String)
  | Restored (api_key : String)
  | NotConnected (api_key : String) (error : Option String)
  | Connected (c : ConnectedState)
deriving Repr, DecidableEq

/-- `State::not_logged_in()`. -/
def not_logged_in : SessionState := .NotLoggedIn "" "" false none

/-- `ConnectedStateRecvKind` (src/todos.rs, lines 147-151). -/
inductive ConnectedStateRecvKind
  | Nop
  | Op (op : WebsocketOp)
  | Ping (data : List Nat)
deriving Repr, DecidableEq

/-- `ConnectionCloseKind` (src/todos.rs, lines 153-156). -/
inductive ConnectionCloseKind
  | Unauthorized
  | Other (e : String)
deriving Repr, DecidableEq

/-- An incoming transport frame, as classified by the tungstenite message
type.  A `text` frame carries its `serde_json` decode result (JSON parsing
itself is external): `.ok op` for a well-formed payload, `.error e` for the
reported decode error.  `other` covers the remaining frame kinds
(binary, pong, raw frames), which the source maps to `Nop`. -/
inductive InMessage
  | text (decoded : Except String WebsocketOp)
  | ping (data : List Nat)
  | close (reason : Option String)
  | other
deriving Repr

/-- Translation of `ConnectedState::handle_recv` (src/todos.rs, lines
196-221). -/
def handle_recv (result : Option (Except String InMessage)) :
    Except ConnectionCloseKind ConnectedStateRecvKind :=
  match result with
  | some (.ok msg) =>
    match msg with
    | .text d =>
      match d with
      | .ok v => .ok (.Op v)
      | .error e => .error (.Other e)
    | .ping data => .ok (.Ping data)
    | .close f =>
      .error
        (match f with
         | some reason =>
           if reason = "Unauthorized" then .Unauthorized else .Other reason
         | none => .Other "connection closed unexpectedly")
    | .other => .ok .Nop
  | some (.error e) => .error (.Other e)
  | none => .error (.Other "Lost connection")

/-- The fields of the `Todos` struct relevant to the session claims, plus
the presence of the on-disk credential cache file (`cache.json`), which the
source manipulates through the external `xdg_manager` collaborator. -/
structure Todos where
  nocache : Bool
  state : SessionState
  cache_exists : Bool
deriving Repr, DecidableEq

/-- Commands returned by the modelled `update` arms: re-arming the receive
loop, replying to a ping, or nothing; `batch` mirrors `Command::batch`. -/
inductive Effect
  | noneE
  | rearmRecv
  | sendPong (data : List Nat)
  | batch (effs : List Effect)

/-- Translation of the `Message::WebsocketRecvComplete` arm of
`Todos::update` (src/todos.rs, lines 788-818).  Note that the
`Unauthorized` branch only replaces the session state; it performs no
cache I/O, so `cache_exists` passes through unchanged. -/
def websocket_recv_complete (t : Todos) (result : Option (Except String InMessage)) :
    Todos × Effect :=
  match t.state with
  | .Connected c =>
    match handle_recv result with
    | .ok v =>
      match v with
      | .Nop => (t, .batch [.rearmRecv, .noneE])
      | .Ping data => (t, .batch [.rearmRecv, .sendPong data])
      | .Op w =>
        let p := apply_operation c.snapshot c.active_id_val w.kind
        ({ t with state := .Connected { c with snapshot := p.1, active_id_val := p.2 } },
         .batch [.rearmRecv, .noneE])
    | .error .Unauthorized => ({ t with state := not_logged_in }, .noneE)
    | .error (.Other e) => ({ t with state := .NotConnected c.api_key (some e) }, .noneE)
  | _ => (t, .noneE)

/-- Translation of the `Message::LogOut` arm of `Todos::update`
(src/todos.rs, lines 627-636): in the `Connected` or `NotConnected`
states, delete the cache file (unless running with `nocache`) and return
to `NotLoggedIn`. -/
def log_out (t : Todos) : Todos :=
  match t.state with
  | .Connected _ =>
    { t with state := not_logged_in,
             cache_exists := if t.nocache then t.cache_exists else false }
  | .NotConnected _ _ =>
    { t with state := not_logged_in,
             cache_exists := if t.nocache then t.cache_exists else false }
  | _ => t

/-- The spec's data-model invariant on the active-edit slot: any id held in
`ActiveEdit` occurs among the ids of `snapshot.live`. -/
def EditInvariant (snap : StateSnapshot) (act : Option (String × String)) : Prop :=
  ∀ id v, act = some (id, v) → id ∈ snap.live.map LiveTask.id

/-- A concrete four-task snapshot used by the reversal claims. -/
def snapABCD : StateSnapshot :=
  ⟨[⟨"a", "A"⟩, ⟨"b", "B"⟩, ⟨"c", "C"⟩, ⟨"d", "D"⟩], []⟩


/-- A concrete three-task snapshot used by the move claims. -/
def snapABC : StateSnapshot := ⟨[⟨"a", "A"⟩, ⟨"b", "B"⟩, ⟨"c", "C"⟩], []⟩

/-- A concrete two-task snapshot. -/
def snapAB : StateSnapshot := ⟨[⟨"a", "A"⟩, ⟨"b", "B"⟩], []⟩

/-- A concrete connected app state holding the credential cache file. -/
def exTodos : Todos :=
  { nocache := false,
    state := .Connected
      { api_key := "K", input_value := "", active_id_val := none,
        snapshot := ⟨[], []⟩, show_finished := false },
    cache_exists := true }

/-! ### Helper lemmas about the deque primitives -/

theorem position_lt_length {p : α → Bool} {l : List α} {n : Nat}
    (h : position p l = some n) : n < l.length := by
  induction l generalizing n with
  | nil => simp [position] at h
  | cons x xs ih =>
    simp only [position] at h
    by_cases hx : p x
    · rw [if_pos hx] at h
      injection h with h'
      subst h'
      simp
    · simp [hx] at h
      rcases h with ⟨m, hm, rfl⟩
      have := ih hm
      simp
      omega

theorem position_get {p : α → Bool} {l : List α} {n : Nat}
    (h : position p l = some n) :
    p (l.get ⟨n, position_lt_length h⟩) = true := by
  induction l generalizing n with
  | nil => simp [position] at h
  | cons x xs ih =>
    simp only [position] at h
    by_cases hx : p x
    · simp [hx] at h
      subst h
      simpa using hx
    · simp [hx] at h
      rcases h with ⟨m, hm, rfl⟩
      simpa using ih hm

theorem position_eq_none {p : α → Bool} {l : List α}
    (h : ∀ x ∈ l, p x = false) : position p l = none := by
  induction l with
  | nil => rfl
  | cons x xs ih =>
    have hx : p x = false := h x (List.mem_cons_self x xs)
    have hxs : position p xs = none := ih (fun y hy => h y (List.mem_cons_of_mem x hy))
    simp [position, hx, hxs]

theorem position_cons_of_pos {p : α → Bool} {x : α} (l : List α)
    (hx : p x = true) : position p (x :: l) = some 0 := by
  simp [position, hx]

theorem exists_position_of_mem {p : α → Bool} {l : List α}
    (h : ∃ x ∈ l, p x = true) : ∃ n, position p l = some n := by
  induction l with
  | nil => rcases h with ⟨x, hx, _⟩; cases hx
  | cons y ys ih =>
    by_cases hy : p y
    · exact ⟨0, by simp [position, hy]⟩
    · rcases h with ⟨x, hx, hpx⟩
      rcases List.mem_cons.1 hx with rfl | hx'
      · exact absurd hpx hy
      · rcases ih ⟨x, hx', hpx⟩ with ⟨n, hn⟩
        exact ⟨n + 1, by simp [position, hy, hn]⟩

theorem take_get_drop (l : List α) (n : Nat) (h : n < l.length) :
    l.take n ++ l.get ⟨n, h⟩ :: l.drop (n + 1) = l := by
  induction l generalizing n with
  | nil => simp at h
  | cons x xs ih =>
    cases n with
    | zero => simp
    | succ m =>
      simp only [List.take_succ_cons, List.get_cons_succ, List.drop_succ_cons,
        List.cons_append, List.cons.injEq, true_and]
      exact ih m (by simpa using h)

theorem mem_vecInsert {a x : α} (l : List α) (n : Nat) :
    a ∈ vecInsert l n x ↔ a = x ∨ a ∈ l := by
  unfold vecInsert
  constructor
  · intro hm
    rcases List.mem_append.1 hm with h1 | h2
    · exact Or.inr (List.mem_of_mem_take h1)
    · rcases List.mem_cons.1 h2 with h3 | h4
      · exact Or.inl h3
      · exact Or.inr (List.mem_of_mem_drop h4)
  · intro hm
    rcases hm with rfl | hmem
    · exact List.mem_append.2 (Or.inr (List.mem_cons_self _ _))
    · have := List.take_append_drop n l
      rw [← this] at hmem
      rcases List.mem_append.1 hmem with h1 | h2
      · exact List.mem_append.2 (Or.inl h1)
      · exact List.mem_append.2 (Or.inr (List.mem_cons_of_mem _ h2))

theorem mem_vecRemove_or {a : α} {l : List α} (n : Nat) (h : n < l.length)
    (ha : a ∈ l) : a = l.get ⟨n, h⟩ ∨ a ∈ vecRemove l n := by
  have hd := take_get_drop l n h
  rw [← hd] at ha
  rcases List.mem_append.1 ha with h1 | h2
  · exact Or.inr (List.mem_append.2 (Or.inl h1))
  · rcases List.mem_cons.1 h2 with h3 | h4
    · exact Or.inl h3
    · exact Or.inr (List.mem_append.2 (Or.inr h4))

theorem mem_of_mem_vecRemove {a : α} {l : List α} {n : Nat}
    (ha : a ∈ vecRemove l n) : a ∈ l := by
  rcases List.mem_append.1 ha with h1 | h2
  · exact List.mem_of_mem_take h1
  · exact List.mem_of_mem_drop h2

theorem mem_rev_segment {a : α} {l : List α} (s e : Nat) (hse : s ≤ e)
    (ha : a ∈ l) :
    a ∈ l.take s ++ ((l.drop s).take (e + 1 - s)).reverse ++ l.drop (e + 1) := by
  rw [← List.take_append_drop s l] at ha
  rcases List.mem_append.1 ha with h1 | h2
  · exact List.mem_append.2 (Or.inl (List.mem_append.2 (Or.inl h1)))
  · rw [← List.take_append_drop (e + 1 - s) (l.drop s)] at h2
    rcases List.mem_append.1 h2 with h3 | h4
    · exact List.mem_append.2
        (Or.inl (List.mem_append.2 (Or.inr (List.mem_reverse.2 h3))))
    · rw [List.drop_drop] at h4
      have hsum : s + (e + 1 - s) = e + 1 := by omega
      rw [hsum] at h4
      exact List.mem_append.2 (Or.inr h4)

theorem editFirst_map_id (id v : String) (l : List LiveTask) :
    (editFirst id v l).map LiveTask.id = l.map LiveTask.id := by
  induction l with
  | nil => rfl
  | cons x xs ih =>
    by_cases hx : x.id == id
    · simp [editFirst, hx]
    · simp [editFirst, hx, ih]

theorem edit_invariant_preserved (snap : StateSnapshot)
    (act : Option (String × String)) (op : WebsocketOpKind)
    (hinv : EditInvariant snap act) :
    EditInvariant (apply_operation snap act op).1 (apply_operation snap act op).2 := by
  cases op with
  | OverwriteState s =>
    intro id v h
    simp [apply_operation] at h
  | InsLiveTask i ival =>
    intro id v h
    simp only [apply_operation] at h ⊢
    have := hinv id v h
    simp only [List.map_cons, List.mem_cons]
    exact Or.inr this
  | RestoreFinishedTask i =>
    intro id v h
    simp only [apply_operation] at h ⊢
    rcases hp : position (fun x => x.id == i) snap.finished with _ | pos
    · simp only [hp] at h ⊢
      exact hinv id v h
    · rcases hr : vecRemoved snap.finished pos with _ | ft
      · simp only [hp, hr] at h ⊢
        exact hinv id v h
      · simp only [hp, hr] at h ⊢
        have := hinv id v h
        simp only [List.map_cons, List.mem_cons]
        exact Or.inr this
  | EditLiveTask i ival =>
    intro id v h
    simp only [apply_operation] at h ⊢
    rw [editFirst_map_id]
    exact hinv id v h
  | DelLiveTask i =>
    intro id v h
    simp only [apply_operation] at h ⊢
    rcases act with _ | ⟨aid, w⟩
    · simp at h
    · by_cases hb : (i == aid) = true
      · simp only [if_pos hb] at h
        exact absurd h (by simp)
      · simp only [if_neg hb, Option.some.injEq, Prod.mk.injEq] at h
        rcases h with ⟨rfl, rfl⟩
        have hmem := hinv _ _ rfl
        rcases List.mem_map.1 hmem with ⟨x, hx, hxid⟩
        refine List.mem_map.2 ⟨x, ?_, hxid⟩
        refine List.mem_filter.2 ⟨hx, ?_⟩
        have hxi : x.id ≠ i := by
          intro hcontra
          apply hb
          rw [← hxid, hcontra]
          simp
        simp [hxi]
  | MvLiveTask id_del id_ins =>
    intro id v h
    simp only [apply_operation] at h ⊢
    rcases hpi : position (fun x => x.id == id_ins) snap.live with _ | ip <;>
      rcases hpd : position (fun x => x.id == id_del) snap.live with _ | dp <;>
      simp only [hpi, hpd] at h ⊢
    · exact hinv id v h
    · exact hinv id v h
    · exact hinv id v h
    · have hdp := position_lt_length hpd
      rcases hr : vecRemoved snap.live dp with _ | removed
      · simp only [hr] at h ⊢
        exact hinv id v h
      · simp only [hr] at h ⊢
        have hget : snap.live.get ⟨dp, hdp⟩ = removed := by
          have hsome : snap.live[dp]? = some removed := hr
          rw [List.getElem?_eq_getElem hdp] at hsome
          injection hsome
        have hmem := hinv id v h
        rcases List.mem_map.1 hmem with ⟨x, hx, hxid⟩
        rcases mem_vecRemove_or dp hdp hx with h1 | h2
        · refine List.mem_map.2 ⟨removed, ?_, ?_⟩
          · exact (mem_vecInsert _ _).2 (Or.inl rfl)
          · rw [← hxid, h1, hget]
        · exact List.mem_map.2 ⟨x, (mem_vecInsert _ _).2 (Or.inr h2), hxid⟩
  | RevLiveTask id1 id2 =>
    intro id v h
    simp only [apply_operation] at h ⊢
    rcases hp1 : position (fun x => x.id == id1) snap.live with _ | p1 <;>
      rcases hp2 : position (fun x => x.id == id2) snap.live with _ | p2 <;>
      simp only [hp1, hp2, optLe] at h ⊢
    · exact hinv id v h
    · exact hinv id v h
    · exact hinv id v h
    · by_cases hle : p1 ≤ p2
      · simp only [decide_eq_true_eq, if_pos hle] at h ⊢
        have hmem := hinv id v h
        rcases List.mem_map.1 hmem with ⟨x, hx, hxid⟩
        exact List.mem_map.2 ⟨x, mem_rev_segment p1 p2 hle hx, hxid⟩
      · simp only [decide_eq_true_eq, if_neg hle] at h ⊢
        have hle' : p2 ≤ p1 := by omega
        have hmem := hinv id v h
        rcases List.mem_map.1 hmem with ⟨x, hx, hxid⟩
        exact List.mem_map.2 ⟨x, mem_rev_segment p2 p1 hle' hx, hxid⟩
  | FinishLiveTask i st =>
    intro id v h
    simp only [apply_operation] at h ⊢
    rcases act with _ | ⟨aid, w⟩
    · rcases hp : position (fun x => x.id == i) snap.live with _ | pos <;>
        simp only [hp] at h
      · simp at h
      · rcases hr : vecRemoved snap.live pos with _ | t <;> simp only [hr] at h <;>
          simp at h
    · by_cases hb : (i == aid) = true
      · simp only [if_pos hb] at h
        rcases hp : position (fun x => x.id == i) snap.live with _ | pos <;>
          simp only [hp] at h
        · simp at h
        · rcases hr : vecRemoved snap.live pos with _ | t <;> simp only [hr] at h <;>
            simp at h
      · simp only [if_neg hb] at h ⊢
        rcases hp : position (fun x => x.id == i) snap.live with _ | pos <;>
          simp only [hp] at h ⊢
        · simp only [Option.some.injEq, Prod.mk.injEq] at h
          rcases h with ⟨rfl, rfl⟩
          exact hinv _ _ rfl
        · have hpos := position_lt_length hp
          rcases hr : vecRemoved snap.live pos with _ | t <;> simp only [hr] at h ⊢
          · simp only [Option.some.injEq, Prod.mk.injEq] at h
            rcases h with ⟨rfl, rfl⟩
            exact hinv _ _ rfl
          · simp only [Option.some.injEq, Prod.mk.injEq] at h
            rcases h with ⟨rfl, rfl⟩
            have hmem := hinv _ _ rfl
            rcases List.mem_map.1 hmem with ⟨x, hx, hxid⟩
            rcases mem_vecRemove_or pos hpos hx with h1 | h2
            · exfalso
              have hgetid : ((snap.live.get ⟨pos, hpos⟩).id == i) = true := position_get hp
              apply hb
              have hxi : x.id = i := by
                rw [h1]
                exact eq_of_beq hgetid
              rw [← hxid, hxi]
              simp
            · exact List.mem_map.2 ⟨x, h2, hxid⟩

theorem finish_clears_active (snap : StateSnapshot) (a v : String) (st : TaskStatus) :
    (apply_operation snap (some (a, v)) (.FinishLiveTask a st)).2 = none := by
  rcases hp : position (fun x => x.id == a) snap.live with _ | pos
  · simp [apply_operation, hp]
  · rcases hr : vecRemoved snap.live pos with _ | t <;> simp [apply_operation, hp, hr]

theorem del_clears_active (snap : StateSnapshot) (a v : String) :
    (apply_operation snap (some (a, v)) (.DelLiveTask a)).2 = none := by
  simp [apply_operation]

/-- C3: the invariant that any id held in the active-edit slot occurs in
`snapshot.live` is preserved by applying any single remote operation, and
in particular a remote `FinishLiveTask` or `DelLiveTask` naming the
actively edited id clears the active-edit slot. -/
theorem C3_edit_invariant_preservation (snap : StateSnapshot)
    (act : Option (String × String)) (op : WebsocketOpKind)
    (hinv : EditInvariant snap act) :
    EditInvariant (apply_operation snap act op).1 (apply_operation snap act op).2
    ∧ (∀ a v st, act = some (a, v) →
        (apply_operation snap act (.FinishLiveTask a st)).2 = none)
    ∧ (∀ a v, act = some (a, v) →
        (apply_operation snap act (.DelLiveTask a)).2 = none) := by
  refine ⟨edit_invariant_preserved snap act op hinv, ?_, ?_⟩
  · intro a v st h
    subst h
    exact finish_clears_active snap a v st
  · intro a v h
    subst h
    exact del_clears_active snap a v

/-- Witness for C3 at a concrete state: one live task with id `a`, under
active edit, hit by a remote `FinishLiveTask` for `a`. -/
theorem C3_witness :
    (EditInvariant
      (apply_operation ⟨[⟨"a", "A"⟩], []⟩ (some ("a", "draft"))
        (.FinishLiveTask "a" .Succeeded)).1
      (apply_operation ⟨[⟨"a", "A"⟩], []⟩ (some ("a", "draft"))
        (.FinishLiveTask "a" .Succeeded)).2)
    ∧ (∀ a v st, (some ("a", "draft") : Option (String × String)) = some (a, v) →
        (apply_operation ⟨[⟨"a", "A"⟩], []⟩ (some ("a", "draft"))
          (.FinishLiveTask a st)).2 = none)
    ∧ (∀ a v, (some ("a", "draft") : Option (String × String)) = some (a, v) →
        (apply_operation ⟨[⟨"a", "A"⟩], []⟩ (some ("a", "draft"))
          (.DelLiveTask a)).2 = none) :=
  C3_edit_invariant_preservation ⟨[⟨"a", "A"⟩], []⟩ (some ("a", "draft"))
    (.FinishLiveTask "a" .Succeeded)
    (by
      intro id v h
      simp only [Option.some.injEq, Prod.mk.injEq] at h
      rcases h with ⟨h1, h2⟩
      subst h1
      decide)

/-- C10: `OverwriteState` replaces both sequences wholesale and
unconditionally clears the active edit, even when the edited id occurs in
the replacement snapshot's live list. -/
theorem C10_overwrite_discards_active :
    (∀ snap act s, apply_operation snap act (.OverwriteState s) = (s, none))
    ∧ (∀ snap (a v : String) s, (∃ x ∈ s.live, x.id = a) →
        (apply_operation snap (some (a, v)) (.OverwriteState s)).2 = none
        ∧ (apply_operation snap (some (a, v)) (.OverwriteState s)).1.live = s.live
        ∧ (apply_operation snap (some (a, v)) (.OverwriteState s)).1.finished
            = s.finished) := by
  constructor
  · intro snap act s
    rfl
  · intro snap a v s hmem
    exact ⟨rfl, rfl, rfl⟩

/-- Witness for C10: the active edit targets id `a`, and the replacement
snapshot still contains `a`; the edit is discarded anyway. -/
theorem C10_witness :
    (apply_operation ⟨[], []⟩ (some ("a", "v"))
        (.OverwriteState ⟨[⟨"a", "A2"⟩], []⟩)).2 = none
    ∧ (apply_operation ⟨[], []⟩ (some ("a", "v"))
        (.OverwriteState ⟨[⟨"a", "A2"⟩], []⟩)).1.live = [⟨"a", "A2"⟩]
    ∧ (apply_operation ⟨[], []⟩ (some ("a", "v"))
        (.OverwriteState ⟨[⟨"a", "A2"⟩], []⟩)).1.finished = [] :=
  C10_overwrite_discards_active.2 ⟨[], []⟩ "a" "v" ⟨[⟨"a", "A2"⟩], []⟩ (by decide)

/-- C9: while `Connected`, `SetActive(Some(id))` requires `id` to occur in
`snapshot.live`; when it does not, the update arm panics on the `unwrap`,
and when it does, the arm does not panic. -/
theorem C9_set_active_panics (snap : StateSnapshot)
    (act : Option (String × String)) (id : String) :
    ((∀ x ∈ snap.live, x.id ≠ id) → set_active snap act (some id) = .panics)
    ∧ ((∃ x ∈ snap.live, x.id = id) → set_active snap act (some id) ≠ .panics) := by
  constructor
  · intro habs
    have hfind : snap.live.find? (fun x => x.id == id) = none := by
      rw [List.find?_eq_none]
      intro x hx
      simp [habs x hx]
    simp [set_active, hfind]
  · intro hex
    have hsome : (snap.live.find? (fun x => x.id == id)).isSome := by
      rw [List.find?_isSome]
      rcases hex with ⟨x, hx, hxid⟩
      exact ⟨x, hx, by simp [hxid]⟩
    rcases hfind : snap.live.find? (fun x => x.id == id) with _ | t
    · rw [hfind] at hsome
      simp at hsome
    · simp [set_active, hfind]

/-- Witness for C9: live contains only id `a`; `SetActive(Some "zz")`
panics, `SetActive(Some "a")` does not. -/
theorem C9_witness :
    set_active ⟨[⟨"a", "A"⟩], []⟩ none (some "zz") = .panics
    ∧ set_active ⟨[⟨"a", "A"⟩], []⟩ none (some "a") ≠ .panics :=
  ⟨(C9_set_active_panics ⟨[⟨"a", "A"⟩], []⟩ none "zz").1 (by decide),
   (C9_set_active_panics ⟨[⟨"a", "A"⟩], []⟩ none "a").2 (by decide)⟩

theorem editFirst_eq_self {id v : String} {l : List LiveTask}
    (h : ∀ x ∈ l, x.id ≠ id) : editFirst id v l = l := by
  induction l with
  | nil => rfl
  | cons x xs ih =>
    have hx : (x.id == id) = false := by
      simp [h x (List.mem_cons_self x xs)]
    simp only [editFirst, hx, Bool.false_eq_true, if_false, List.cons.injEq, true_and]
    exact ih (fun y hy => h y (List.mem_cons_of_mem x hy))

theorem filter_ne_id_eq_self {id : String} {l : List LiveTask}
    (h : ∀ x ∈ l, x.id ≠ id) : l.filter (fun x => !(x.id == id)) = l := by
  induction l with
  | nil => rfl
  | cons x xs ih =>
    have hx : (x.id == id) = false := by
      simp [h x (List.mem_cons_self x xs)]
    simp only [List.filter_cons, hx, Bool.not_false, if_true, List.cons.injEq, true_and]
    exact ih (fun y hy => h y (List.mem_cons_of_mem x hy))

/-- C5: every operation that references an id absent from the RELEVANT
sequence leaves the snapshot unchanged (a silent no-op, not an error):
`EditLiveTask`, `DelLiveTask`, `FinishLiveTask`, `MvLiveTask` and
`RevLiveTask` (either referenced id) need the id absent from `live` only,
and `RestoreFinishedTask` needs it absent from `finished` only; the id
may occur in the other sequence. -/
theorem C5_unknown_id_noop (snap : StateSnapshot) (act : Option (String × String))
    (id other v : String) (st : TaskStatus) :
    ((∀ x ∈ snap.live, x.id ≠ id) →
      (apply_operation snap act (.EditLiveTask id v)).1 = snap
      ∧ (apply_operation snap act (.DelLiveTask id)).1 = snap
      ∧ (apply_operation snap act (.FinishLiveTask id st)).1 = snap
      ∧ (apply_operation snap act (.MvLiveTask id other)).1 = snap
      ∧ (apply_operation snap act (.MvLiveTask other id)).1 = snap
      ∧ (apply_operation snap act (.RevLiveTask id other)).1 = snap
      ∧ (apply_operation snap act (.RevLiveTask other id)).1 = snap)
    ∧ ((∀ x ∈ snap.finished, x.id ≠ id) →
      (apply_operation snap act (.RestoreFinishedTask id)).1 = snap) := by
  constructor
  · intro hlive
    have hpl : position (fun x => x.id == id) snap.live = none := by
      apply position_eq_none
      intro x hx
      simp [hlive x hx]
    refine ⟨?_, ?_, ?_, ?_, ?_, ?_, ?_⟩
    · simp only [apply_operation]
      rw [editFirst_eq_self hlive]
    · simp only [apply_operation]
      rw [filter_ne_id_eq_self hlive]
    · simp only [apply_operation, hpl]
    · rcases hpo : position (fun x => x.id == other) snap.live with _ | k <;>
        simp only [apply_operation, hpl, hpo]
    · rcases hpo : position (fun x => x.id == other) snap.live with _ | k <;>
        simp only [apply_operation, hpl, hpo]
    · rcases hpo : position (fun x => x.id == other) snap.live with _ | k <;>
        simp only [apply_operation, hpl, hpo, optLe] <;> simp
    · rcases hpo : position (fun x => x.id == other) snap.live with _ | k <;>
        simp only [apply_operation, hpl, hpo, optLe] <;> simp
  · intro hfin
    have hpf : position (fun x => x.id == id) snap.finished = none := by
      apply position_eq_none
      intro x hx
      simp [hfin x hx]
    simp only [apply_operation, hpf]

/-- Witness for C5 at two instantiations on one snapshot: the live-list
conclusions with id `g`, which is absent from `live` but PRESENT in
`finished` (the op/state-race case the spec tolerates), and the restore
conclusion with id `zz`, absent from `finished` but with `a` live. -/
theorem C5_witness :
    ((apply_operation ⟨[⟨"a", "A"⟩], [⟨"g", "G", .Succeeded⟩]⟩ none
        (.EditLiveTask "g" "x")).1 = ⟨[⟨"a", "A"⟩], [⟨"g", "G", .Succeeded⟩]⟩
      ∧ (apply_operation ⟨[⟨"a", "A"⟩], [⟨"g", "G", .Succeeded⟩]⟩ none
          (.DelLiveTask "g")).1 = ⟨[⟨"a", "A"⟩], [⟨"g", "G", .Succeeded⟩]⟩
      ∧ (apply_operation ⟨[⟨"a", "A"⟩], [⟨"g", "G", .Succeeded⟩]⟩ none
          (.FinishLiveTask "g" .Succeeded)).1 = ⟨[⟨"a", "A"⟩], [⟨"g", "G", .Succeeded⟩]⟩
      ∧ (apply_operation ⟨[⟨"a", "A"⟩], [⟨"g", "G", .Succeeded⟩]⟩ none
          (.MvLiveTask "g" "a")).1 = ⟨[⟨"a", "A"⟩], [⟨"g", "G", .Succeeded⟩]⟩
      ∧ (apply_operation ⟨[⟨"a", "A"⟩], [⟨"g", "G", .Succeeded⟩]⟩ none
          (.MvLiveTask "a" "g")).1 = ⟨[⟨"a", "A"⟩], [⟨"g", "G", .Succeeded⟩]⟩
      ∧ (apply_operation ⟨[⟨"a", "A"⟩], [⟨"g", "G", .Succeeded⟩]⟩ none
          (.RevLiveTask "g" "a")).1 = ⟨[⟨"a", "A"⟩], [⟨"g", "G", .Succeeded⟩]⟩
      ∧ (apply_operation ⟨[⟨"a", "A"⟩], [⟨"g", "G", .Succeeded⟩]⟩ none
          (.RevLiveTask "a" "g")).1 = ⟨[⟨"a", "A"⟩], [⟨"g", "G", .Succeeded⟩]⟩)
    ∧ (apply_operation ⟨[⟨"a", "A"⟩], [⟨"g", "G", .Succeeded⟩]⟩ none
        (.RestoreFinishedTask "zz")).1 = ⟨[⟨"a", "A"⟩], [⟨"g", "G", .Succeeded⟩]⟩ :=
  ⟨(C5_unknown_id_noop ⟨[⟨"a", "A"⟩], [⟨"g", "G", .Succeeded⟩]⟩ none "g" "a" "x"
      .Succeeded).1 (by decide),
   (C5_unknown_id_noop ⟨[⟨"a", "A"⟩], [⟨"g", "G", .Succeeded⟩]⟩ none "zz" "a" "x"
      .Succeeded).2 (by decide)⟩

/-- C7: for a snapshot with `a` in `live` (and, per the data-model
invariant, `a` absent from `finished`), finishing `a` and then restoring
`a` puts `a` back at the front of `live`, and `finished` no longer
contains `a`. -/
theorem C7_finish_restore_round_trip (snap : StateSnapshot)
    (act : Option (String × String)) (a : String) (st : TaskStatus)
    (hin : ∃ x ∈ snap.live, x.id = a)
    (hout : ∀ x ∈ snap.finished, x.id ≠ a) :
    ∃ v rest,
      (apply_operation
          (apply_operation snap act (.FinishLiveTask a st)).1
          (apply_operation snap act (.FinishLiveTask a st)).2
          (.RestoreFinishedTask a)).1.live = { id := a, value := v } :: rest
      ∧ ∀ x ∈ (apply_operation
          (apply_operation snap act (.FinishLiveTask a st)).1
          (apply_operation snap act (.FinishLiveTask a st)).2
          (.RestoreFinishedTask a)).1.finished, x.id ≠ a := by
  have hexp : ∃ x ∈ snap.live, (fun y : LiveTask => y.id == a) x = true := by
    rcases hin with ⟨x, hx, hxid⟩
    exact ⟨x, hx, by simp [hxid]⟩
  obtain ⟨pos, hpos⟩ := exists_position_of_mem hexp
  have hlt := position_lt_length hpos
  have hrem : vecRemoved snap.live pos = some (snap.live.get ⟨pos, hlt⟩) := by
    unfold vecRemoved
    rw [List.getElem?_eq_getElem hlt]
    rfl
  have hfin1 : (apply_operation snap act (.FinishLiveTask a st)).1
      = ⟨vecRemove snap.live pos,
         { id := a, value := (snap.live.get ⟨pos, hlt⟩).value, status := st }
           :: snap.finished⟩ := by
    simp only [apply_operation, hpos, hrem]
  rw [hfin1]
  have hpos2 : position (fun x => x.id == a)
      ({ id := a, value := (snap.live.get ⟨pos, hlt⟩).value, status := st }
        :: snap.finished) = some 0 :=
    position_cons_of_pos _ (by simp)
  refine ⟨(snap.live.get ⟨pos, hlt⟩).value, vecRemove snap.live pos, ?_, ?_⟩
  · simp only [apply_operation, hpos2, vecRemoved, List.getElem?_cons_zero]
  · simp only [apply_operation, hpos2, vecRemoved, List.getElem?_cons_zero]
    simp only [vecRemove, List.take_zero, List.drop_succ_cons, List.drop_zero,
      List.nil_append]
    exact hout

/-- Witness for C7: live `[a, b]`, finish `a` then restore `a`. -/
theorem C7_witness :
    ∃ v rest,
      (apply_operation
          (apply_operation ⟨[⟨"a", "A"⟩, ⟨"b", "B"⟩], []⟩ none
            (.FinishLiveTask "a" .Succeeded)).1
          (apply_operation ⟨[⟨"a", "A"⟩, ⟨"b", "B"⟩], []⟩ none
            (.FinishLiveTask "a" .Succeeded)).2
          (.RestoreFinishedTask "a")).1.live = { id := "a", value := v } :: rest
      ∧ ∀ x ∈ (apply_operation
          (apply_operation ⟨[⟨"a", "A"⟩, ⟨"b", "B"⟩], []⟩ none
            (.FinishLiveTask "a" .Succeeded)).1
          (apply_operation ⟨[⟨"a", "A"⟩, ⟨"b", "B"⟩], []⟩ none
            (.FinishLiveTask "a" .Succeeded)).2
          (.RestoreFinishedTask "a")).1.finished, x.id ≠ "a" :=
  C7_finish_restore_round_trip ⟨[⟨"a", "A"⟩, ⟨"b", "B"⟩], []⟩ none "a" .Succeeded
    (by decide) (by decide)

theorem optLe_swap (o1 o2 : Option Nat) :
    (if optLe o1 o2 then (o1, o2) else (o2, o1))
      = (if optLe o2 o1 then (o2, o1) else (o1, o2)) := by
  rcases o1 with _ | a <;> rcases o2 with _ | b
  · rfl
  · rfl
  · rfl
  · simp only [optLe]
    rcases Nat.lt_trichotomy a b with hlt | heq | hgt
    · have h1 : a ≤ b := Nat.le_of_lt hlt
      have h2 : ¬ b ≤ a := by omega
      simp [h1, h2]
    · subst heq
      simp
    · have h1 : ¬ a ≤ b := by omega
      have h2 : b ≤ a := Nat.le_of_lt hgt
      simp [h1, h2]

/-- C4: `RevLiveTask` reverses the inclusive sub-range of `live` between
the positions of the two ids (smaller position first), is symmetric in its
two ids, is a no-op when either id is absent, and on live `[A,B,C,D]` with
ids `a,b,c,d` the operation with ids `b,d` yields `[A,D,C,B]`. -/
theorem C4_rev_correct :
    (∀ snap act id1 id2 p1 p2,
      position (fun x => x.id == id1) snap.live = some p1 →
      position (fun x => x.id == id2) snap.live = some p2 →
      p1 ≤ p2 →
      apply_operation snap act (.RevLiveTask id1 id2)
        = ({ live := snap.live.take p1
              ++ ((snap.live.drop p1).take (p2 + 1 - p1)).reverse
              ++ snap.live.drop (p2 + 1),
             finished := snap.finished }, act))
    ∧ (∀ snap act id1 id2,
        apply_operation snap act (.RevLiveTask id1 id2)
          = apply_operation snap act (.RevLiveTask id2 id1))
    ∧ (∀ snap act id1 id2,
        (position (fun x => x.id == id1) snap.live = none
          ∨ position (fun x => x.id == id2) snap.live = none) →
        apply_operation snap act (.RevLiveTask id1 id2) = (snap, act))
    ∧ (apply_operation snapABCD none
        (.RevLiveTask "b" "d")).1.live.map LiveTask.id = ["a", "d", "c", "b"] := by
  refine ⟨?_, ?_, ?_, by decide⟩
  · intro snap act id1 id2 p1 p2 h1 h2 hle
    simp only [apply_operation, h1, h2, optLe, decide_eq_true_eq, if_pos hle]
  · intro snap act id1 id2
    simp only [apply_operation]
    rw [optLe_swap]
  · intro snap act id1 id2 hor
    rcases h1 : position (fun x => x.id == id1) snap.live with _ | p1 <;>
      rcases h2 : position (fun x => x.id == id2) snap.live with _ | p2 <;>
      simp only [apply_operation, h1, h2, optLe] <;> try rfl
    exfalso
    rcases hor with hc | hc
    · rw [h1] at hc
      exact Option.noConfusion hc
    · rw [h2] at hc
      exact Option.noConfusion hc

/-- Witness for C4: the range reversal instantiated on the concrete
snapshot at positions 1 and 3. -/
theorem C4_witness :
    apply_operation snapABCD none (.RevLiveTask "b" "d")
      = ({ live := snapABCD.live.take 1
            ++ ((snapABCD.live.drop 1).take (3 + 1 - 1)).reverse
            ++ snapABCD.live.drop (3 + 1),
           finished := snapABCD.finished }, none) :=
  C4_rev_correct.1 snapABCD none "b" "d" 1 3 rfl rfl (by decide)

theorem drop_eq_get_cons {l : List α} (n : Nat) (h : n < l.length) :
    l.drop n = l.get ⟨n, h⟩ :: l.drop (n + 1) := by
  induction l generalizing n with
  | nil => simp at h
  | cons x xs ih =>
    cases n with
    | zero => simp
    | succ m =>
      simp only [List.drop_succ_cons, List.get_cons_succ]
      exact ih m (by simpa using h)


/-- Counterexample to C2 as stated: on live `[A,B,C]` with ids `a,b,c`,
`MvLiveTask{id_del: a, id_ins: c}` (both ids present) yields `[B,C,A]`,
where `a` sits immediately AFTER `c`, not in front of it (`[B,A,C]`). -/
theorem C2_counterexample :
    (apply_operation snapABC none (.MvLiveTask "a" "c")).1.live.map LiveTask.id
      = ["b", "c", "a"]
    ∧ (["b", "c", "a"] : List String) ≠ ["b", "a", "c"] := by decide

/-- C2 (amended): the moved task is reinserted at the position `id_ins`
held before the removal, so when `id_del` was positioned after `id_ins`
it ends up immediately in front of `id_ins`; the `[A,B,C]`,
`id_del = c, id_ins = a` example yields `[C,A,B]`. -/
theorem C2_mv_before_when_del_after_ins :
    ((apply_operation snapABC none (.MvLiveTask "c" "a")).1.live.map LiveTask.id
      = ["c", "a", "b"])
    ∧ (∀ snap act id_del id_ins ip dp,
        position (fun x => x.id == id_ins) snap.live = some ip →
        position (fun x => x.id == id_del) snap.live = some dp →
        ip < dp →
        ∃ pre t u post,
          (apply_operation snap act (.MvLiveTask id_del id_ins)).1.live
            = pre ++ t :: u :: post
          ∧ t.id = id_del ∧ u.id = id_ins) := by
  refine ⟨by decide, ?_⟩
  intro snap act id_del id_ins ip dp h1 h2 hlt
  have hdl := position_lt_length h2
  have hil := position_lt_length h1
  have hrem : vecRemoved snap.live dp = some (snap.live.get ⟨dp, hdl⟩) := by
    unfold vecRemoved
    rw [List.getElem?_eq_getElem hdl]
    rfl
  refine ⟨snap.live.take ip, snap.live.get ⟨dp, hdl⟩, snap.live.get ⟨ip, hil⟩,
    (snap.live.drop (ip + 1)).take (dp - ip - 1) ++ snap.live.drop (dp + 1),
    ?_, eq_of_beq (position_get h2), eq_of_beq (position_get h1)⟩
  simp only [apply_operation, h1, h2, hrem]
  unfold vecInsert vecRemove
  have hlen : ip ≤ (snap.live.take dp).length := by
    rw [List.length_take]
    omega
  rw [List.take_append_of_le_length hlen, List.drop_append_of_le_length hlen,
    List.take_take, Nat.min_eq_left (Nat.le_of_lt hlt), List.drop_take,
    drop_eq_get_cons ip hil]
  have hsub : dp - ip = (dp - ip - 1) + 1 := by omega
  rw [hsub, List.take_succ_cons]
  simp

/-- Witness for C2 (amended) on the concrete `[A,B,C]` snapshot, moving
`c` in front of `a`. -/
theorem C2_witness :
    ∃ pre t u post,
      (apply_operation snapABC none (.MvLiveTask "c" "a")).1.live
        = pre ++ t :: u :: post
      ∧ t.id = "c" ∧ u.id = "a" :=
  C2_mv_before_when_del_after_ins.2 snapABC none "c" "a" 0 2 rfl rfl (by decide)

/-- Counterexample to C1 as stated: a close frame with reason
"Unauthorized" received while `Connected` moves the session to
`NotLoggedIn`, but the on-disk credential cache is NOT deleted — the
handler performs no cache I/O, so the cache file is still present. -/
theorem C1_counterexample :
    (websocket_recv_complete exTodos
        (some (.ok (.close (some "Unauthorized"))))).1.state = not_logged_in
    ∧ (websocket_recv_complete exTodos
        (some (.ok (.close (some "Unauthorized"))))).1.cache_exists = true
    ∧ (websocket_recv_complete exTodos
        (some (.ok (.close (some "Unauthorized"))))).1.cache_exists ≠ false := by
  refine ⟨rfl, rfl, by decide⟩

/-- C1 (amended): an "Unauthorized" close while `Connected` returns the
session to `NotLoggedIn` and leaves the on-disk credential cache exactly
as it was; the cache is deleted only by an explicit `LogOut` (when caching
is enabled). -/
theorem C1_unauthorized_close :
    (∀ (t : Todos) (c : ConnectedState), t.state = .Connected c →
      (websocket_recv_complete t
          (some (.ok (.close (some "Unauthorized"))))).1.state = not_logged_in
      ∧ (websocket_recv_complete t
          (some (.ok (.close (some "Unauthorized"))))).1.cache_exists
            = t.cache_exists)
    ∧ (∀ (t : Todos) (c : ConnectedState), t.state = .Connected c →
        t.nocache = false →
        (log_out t).state = not_logged_in ∧ (log_out t).cache_exists = false) := by
  constructor
  · intro t c hstate
    have hrecv : handle_recv (some (.ok (.close (some "Unauthorized"))))
        = .error .Unauthorized := rfl
    constructor <;> simp [websocket_recv_complete, hstate, hrecv]
  · intro t c hstate hnc
    constructor <;> simp [log_out, hstate, hnc]

/-- Witness for C1 (amended) at the concrete connected state. -/
theorem C1_witness :
    ((websocket_recv_complete exTodos
        (some (.ok (.close (some "Unauthorized"))))).1.state = not_logged_in
      ∧ (websocket_recv_complete exTodos
          (some (.ok (.close (some "Unauthorized"))))).1.cache_exists
            = exTodos.cache_exists)
    ∧ ((log_out exTodos).state = not_logged_in
      ∧ (log_out exTodos).cache_exists = false) :=
  ⟨C1_unauthorized_close.1 exTodos _ rfl, C1_unauthorized_close.2 exTodos _ rfl rfl⟩

/-- The branch of `submit_input` taken when the first word is `mv`,
exposed as a rewriting equation. -/
theorem submit_input_mv (snap : StateSnapshot) (val : String)
    (h : firstWord val = "mv") :
    submit_input snap val =
      (match scanUsize2 "mv" val with
       | some (i, j) =>
         match snap.live[i]?, snap.live[j]? with
         | some fr, some bk =>
           if i ≠ j then .emit (.Move fr.id bk.id) else .nothing
         | _, _ => .nothing
       | none =>
         match scanUsize1 "mv" val with
         | some i =>
           match snap.live[i]?, snap.live.head? with
           | some fr, some bk =>
             if snap.live.length > 1 then .emit (.Move fr.id bk.id) else .nothing
           | _, _ => .nothing
         | none => .nothing) := by
  simp only [submit_input, h]
  rfl

/-- Counterexample to C8 as stated: with two live tasks, the bare command
"mv" matches neither `sscanf` template and falls through to
`Command::none()` — it does not default to moving the front task before
the second. -/
theorem C8_counterexample :
    submit_input snapAB "mv" = .nothing
    ∧ CmdOutcome.nothing ≠ .emit (.Move "a" "b") := by decide

/-- C8 (amended): `mv i j` with distinct in-range positions emits
`Move(id_at_i, id_at_j)`; `mv i` defaults `j` to the front (requiring at
least two live tasks); out-of-range indices silently produce no
operation; and the bare command `mv` always produces no operation.
Includes the concrete scenarios: `mv 2` on a three-task list emits
`Move(id_at_2, id_at_0)`, and `mv 2` on a one-task list is a no-op. -/
theorem C8_mv_command :
    (∀ snap val i j fr bk,
      scanUsize2 "mv" val = some (i, j) → firstWord val = "mv" → i ≠ j →
      snap.live[i]? = some fr → snap.live[j]? = some bk →
      submit_input snap val = .emit (.Move fr.id bk.id))
    ∧ (∀ snap val i fr bk,
        scanUsize2 "mv" val = none → scanUsize1 "mv" val = some i →
        firstWord val = "mv" →
        snap.live[i]? = some fr → snap.live.head? = some bk →
        1 < snap.live.length →
        submit_input snap val = .emit (.Move fr.id bk.id))
    ∧ (∀ snap val i j,
        scanUsize2 "mv" val = some (i, j) → firstWord val = "mv" →
        snap.live[i]? = none →
        submit_input snap val = .nothing)
    ∧ (∀ snap val i,
        scanUsize2 "mv" val = none → scanUsize1 "mv" val = some i →
        firstWord val = "mv" →
        snap.live[i]? = none →
        submit_input snap val = .nothing)
    ∧ (∀ snap, submit_input snap "mv" = .nothing)
    ∧ submit_input snapABC "mv 2" = .emit (.Move "c" "a")
    ∧ submit_input ⟨[⟨"a", "A"⟩], []⟩ "mv 2" = .nothing := by
  refine ⟨?_, ?_, ?_, ?_, ?_, by decide, by decide⟩
  · intro snap val i j fr bk hs2 hfw hij hfi hfj
    rw [submit_input_mv snap val hfw]
    simp only [hs2, hfi, hfj, if_pos hij]
  · intro snap val i fr bk hs2 hs1 hfw hfi hhd hlen
    rw [submit_input_mv snap val hfw]
    simp only [hs2, hs1, hfi, hhd, if_pos hlen]
  · intro snap val i j hs2 hfw hfi
    rw [submit_input_mv snap val hfw]
    rcases hfj : snap.live[j]? with _ | bk <;> simp only [hs2, hfi, hfj]
  · intro snap val i hs2 hs1 hfw hfi
    rw [submit_input_mv snap val hfw]
    rcases hhd : snap.live.head? with _ | bk <;> simp only [hs2, hs1, hfi, hhd]
  · intro snap
    rfl

/-- Witness for C8 (amended): `mv 2 0` on the three-task snapshot. -/
theorem C8_witness :
    submit_input snapABC "mv 2 0" = .emit (.Move "c" "a") :=
  C8_mv_command.1 snapABC "mv 2 0" 2 0 ⟨"c", "C"⟩ ⟨"a", "A"⟩ rfl rfl
    (by decide) rfl rfl

/-- C6 (code bug): the input line "x" is not one of the documented command
verbs, so per the spec it should create a new live task with text "x";
instead the interpreter hits the `panic!()` arm — for every snapshot.  Any
other unrecognized first word does create a task with the full line. -/
theorem C6_x_panics (snap : StateSnapshot) :
    submit_input snap "x" = .panics
    ∧ submit_input snap "x y" = .panics
    ∧ submit_input snap "rando text" = .emit (.NewLive "rando text") :=
  ⟨rfl, rfl, rfl⟩
